import Mathlib

/-!
Verification of the sqlite-storage conversation-persistence layer.

The definitions below are a shallow embedding of the repository's source:

* `SQLiteChatHistoryStorage.ts` — recursive-CTE ancestry reconstruction
  (`getChatHistoryByMessageId`) over the `ChatMessage` table.
* `SQLiteAgentStateStorage.ts` — `storeCheckpoint` / `retrieveCheckpoint`
  over the `AgentState` table, and the `retryOnBusy` wrapper.
* `SQLiteChatCheckpointStorage.js` — `createCheckpoint` over `Checkpoint`.
* The CLI history storage (`add` / `getAll`) with its in-memory cache.
* The chat-message storage (`storeChat` / `retrieveMessageById` /
  `formatMessage`) including the session-title regex derivation.

SQLite tables are modelled as Lean lists of row structures plus the next
AUTOINCREMENT id.  `JSON.stringify` / `JSON.parse` belong to the external
runtime, so they are abstracted as a codec pair; "JSON-serializable
payload" is the hypothesis that the codec round-trips on that payload.
Text parameters compared against INTEGER primary-key columns (SQLite
numeric affinity) are modelled by comparing the parameter with the decimal
rendering of the row id; ids produced by this API are exactly such decimal
renderings.
-/

instance {ε α : Type} [DecidableEq ε] [DecidableEq α] : DecidableEq (Except ε α) := fun a b =>
  match a, b with
  | .ok a, .ok b => if h : a = b then isTrue (h ▸ rfl) else isFalse (by simp [h])
  | .error a, .error b => if h : a = b then isTrue (h ▸ rfl) else isFalse (by simp [h])
  | .ok _, .error _ => isFalse (by simp)
  | .error _, .ok _ => isFalse (by simp)

/-- Abstraction of the host runtime's JSON library (`JSON.stringify` /
`JSON.parse`), which is outside this repository. -/
structure JsonCodec (V : Type) where
  stringify : V → String
  parse : String → Option V

/-- "JSON-serializable payload": the external JSON library round-trips on it. -/
def JsonCodec.Serializable {V : Type} (codec : JsonCodec V) (v : V) : Prop :=
  codec.parse (codec.stringify v) = some v

/-- A concrete codec used to instantiate witnesses and counterexamples. -/
def strCodec : JsonCodec String := ⟨fun s => s, fun s => some s⟩

/-- A concrete codec whose parse always yields a fixed value; used only to
instantiate witnesses where round-tripping is irrelevant. -/
def constCodec {V : Type} (v : V) : JsonCodec V := ⟨fun _ => "x", fun _ => some v⟩

/-- JS `.` in the title regex: any character except a line terminator. -/
def jsDot (c : Char) : Bool :=
  !(c == '\n' || c == '\r' || c == '\u2028' || c == '\u2029')

/-- JS `\s`: the ECMAScript WhiteSpace and LineTerminator characters. -/
def jsWs (c : Char) : Bool :=
  c == ' ' || c == '\t' || c == '\n' || c == '\r' ||
  c == '\u000b' || c == '\u000c' || c == '\u00a0' || c == '\u1680' ||
  ('\u2000' ≤ c && c ≤ '\u200a') ||
  c == '\u2028' || c == '\u2029' || c == '\u202f' || c == '\u205f' ||
  c == '\u3000' || c == '\ufeff'

/-- JS `String.prototype.trim`: strips the ECMAScript whitespace set from
both ends. -/
def jsTrim (s : String) : String :=
  String.mk (((s.data.dropWhile jsWs).reverse.dropWhile jsWs).reverse)

/-! ## ChatMessage rows and recursive-CTE ancestry reconstruction
(`SQLiteChatHistoryStorage.ts`, `getChatHistoryByMessageId`). -/

/-- A row of the `ChatMessage` table (schema `db.sql.ts`). -/
structure ChatMessageRow where
  id : Nat
  previousMessageId : Option Nat
  sessionId : Nat
  request : String
  response : Option String
  createdAt : Nat
  updatedAt : Nat
deriving DecidableEq, Repr

/-- `SELECT ... FROM ChatMessage WHERE id = ?` (id is the primary key, so at
most one row matches; `find?` returns the first). -/
def lookupMessage (db : List ChatMessageRow) (i : Nat) : Option ChatMessageRow :=
  db.find? (fun r => r.id == i)

/-- One step-bounded run of the recursive CTE of `getChatHistoryByMessageId`:

    WITH RECURSIVE message_history AS (
      SELECT ... FROM ChatMessage WHERE id = ?
      UNION ALL
      SELECT cm.* FROM ChatMessage cm
        INNER JOIN message_history mh ON cm.id = mh.previousMessageId)
    SELECT ... FROM message_history

With `UNION ALL` SQLite emits rows in generation order: the seed row first,
then for each emitted row the row whose `id` equals its `previousMessageId`.
Because `id` is the primary key the queue never holds more than one row, so
the run is a parent-following walk.  `fuel` bounds the number of rows the
walk may emit; `none` means the query has not completed within `fuel` rows
(an unbounded query never returns `some`for any fuel). -/
def historyFrom (db : List ChatMessageRow) : Nat → Option Nat → Option (List ChatMessageRow)
  | _, none => some []
  | 0, some i =>
    match lookupMessage db i with
    | none => some []
    | some _ => none
  | fuel+1, some i =>
    match lookupMessage db i with
    | none => some []
    | some r => (historyFrom db fuel r.previousMessageId).map (r :: ·)

/-- `getChatHistoryByMessageId(messageId)`, step-bounded by `fuel`. -/
def getChatHistoryByMessageId (db : List ChatMessageRow) (messageId : Nat) (fuel : Nat) :
    Option (List ChatMessageRow) :=
  historyFrom db fuel (some messageId)

/-- Concrete four-turn chain root → A → B → C used in counterexamples. -/
def rowRoot : ChatMessageRow := ⟨1, none, 1, "root request", some "root response", 10, 10⟩

def rowA : ChatMessageRow := ⟨2, some 1, 1, "request A", some "response A", 11, 11⟩

def rowB : ChatMessageRow := ⟨3, some 2, 1, "request B", some "response B", 12, 12⟩

def rowC : ChatMessageRow := ⟨4, some 3, 1, "request C", some "response C", 13, 13⟩

def chainDb : List ChatMessageRow := [rowRoot, rowA, rowB, rowC]

/-- Concrete cyclic state: A.previousMessageId = B.id, B.previousMessageId = A.id. -/
def cycRowA : ChatMessageRow := ⟨1, some 2, 1, "request A", none, 10, 10⟩

def cycRowB : ChatMessageRow := ⟨2, some 1, 1, "request B", none, 11, 11⟩

def cycleDb : List ChatMessageRow := [cycRowA, cycRowB]

/-! ## AgentState storage (`SQLiteAgentStateStorage.ts`). -/

/-- A row of the `AgentState` table.  Its schema (quoted in the package
documentation) is

    CREATE TABLE IF NOT EXISTS AgentState
    ( id INTEGER PRIMARY KEY AUTOINCREMENT,
      agentId TEXT NOT NULL, name TEXT NOT NULL,
      state TEXT NOT NULL, createdAt INTEGER NOT NULL );

Note that the table has no UNIQUE constraint on `(agentId, name)`. -/
structure AgentStateRow where
  id : Nat
  agentId : String
  name : String
  state : String
  createdAt : Nat
deriving DecidableEq, Repr

structure AgentStateDb where
  rows : List AgentStateRow
  nextId : Nat
deriving DecidableEq, Repr

/-- Fresh database after schema initialization (AUTOINCREMENT starts at 1). -/
def emptyAgentDb : AgentStateDb := ⟨[], 1⟩

/-- Input to `storeCheckpoint` (interface `NamedAgentCheckpoint`). -/
structure NamedAgentCheckpoint (V : Type) where
  agentId : String
  name : String
  state : V
  createdAt : Nat

/-- Result rows of `retrieveCheckpoint` (interface `StoredAgentCheckpoint`).
`createdAt` is `Option Nat` because the code populates it from a column its
SELECT does not project, so at runtime the field is `undefined` (`none`). -/
structure StoredAgentCheckpoint (V : Type) where
  id : String
  name : String
  agentId : String
  state : V
  createdAt : Option Nat
deriving DecidableEq, Repr

/-- `storeCheckpoint`:

    INSERT OR REPLACE INTO AgentState (agentId, name, state, createdAt)
    VALUES (?, ?, ?, ?) RETURNING id

`OR REPLACE` only fires on a uniqueness violation; the only uniqueness
constraint of `AgentState` is the primary key, which is not among the
inserted columns, so the statement always inserts a fresh row with the next
AUTOINCREMENT id.  Returns the updated table and `row.id.toString()`. -/
def storeCheckpoint {V : Type} (codec : JsonCodec V) (db : AgentStateDb)
    (checkpoint : NamedAgentCheckpoint V) : AgentStateDb × String :=
  let row : AgentStateRow :=
    ⟨db.nextId, checkpoint.agentId, checkpoint.name,
      codec.stringify checkpoint.state, checkpoint.createdAt⟩
  (⟨db.rows ++ [row], db.nextId + 1⟩, toString row.id)

/-- `retrieveCheckpoint(agentId)`:

    SELECT id, agentId, name, state FROM AgentState WHERE id = ?

The parameter is named `agentId` but is compared against the INTEGER
primary-key column `id` (numeric affinity; modelled by comparing the text
parameter with the decimal rendering of the row id).  On a hit the returned
object's `agentId` field is the function argument itself, not the row's
`agentId` column, and its `createdAt` is read from `row.createdAt` even
though the SELECT does not project that column, so it is `undefined`
(`none`) — the stored timestamp is not returned.  `JSON.parse` failure is
an exception (`.error`); a missing row yields `null` (`.ok none`). -/
def retrieveCheckpoint {V : Type} (codec : JsonCodec V) (db : AgentStateDb)
    (agentId : String) : Except String (Option (StoredAgentCheckpoint V)) :=
  match db.rows.find? (fun r => toString r.id == agentId) with
  | none => .ok none
  | some r =>
    match codec.parse r.state with
    | none => .error "JSON.parse failed on stored state"
    | some v => .ok (some ⟨toString r.id, r.name, agentId, v, none⟩)

/-- Number of stored rows whose logical key `(agentId, name)` matches. -/
def countAgentKey (db : AgentStateDb) (agentId name : String) : Nat :=
  (db.rows.filter (fun r => r.agentId == agentId && r.name == name)).length

/-! ## The `retryOnBusy` wrapper (`SQLiteAgentStateStorage.ts`).

    private async retryOnBusy<T>(operation: () => T): Promise<T> {
      for (let i = 0; i < this.maxRetries; i++) {
        try { return operation(); }
        catch (error) {
          if (error.code === 'SQLITE_BUSY' && i < this.maxRetries - 1) {
            await new Promise(r => setTimeout(r, this.retryDelayMs * (i + 1)));
            continue;
          }
          throw error;
        }
      }
      throw new Error('Max retries reached');
    }
-/

/-- A thrown JS error; `code` is `undefined` (`none`) unless set. -/
structure JsError where
  code : Option String
  message : String
deriving DecidableEq, Repr

/-- `error.code === 'SQLITE_BUSY'`. -/
def JsError.isBusy (e : JsError) : Bool := e.code == some "SQLITE_BUSY"

/-- The `new Error('Max retries reached')` after the loop (reachable only
when `maxRetries = 0`). -/
def maxRetriesError : JsError := ⟨none, "Max retries reached"⟩

/-- Observable outcome of a `retryOnBusy` run: the returned value or thrown
error, the number of attempts made, and the sequence of sleep durations. -/
structure RetryTrace (T : Type) where
  outcome : Except JsError T
  attempts : Nat
  sleeps : List Nat
deriving DecidableEq, Repr

/-- The loop body, at loop counter `i` with `fuel = maxRetries - i`
iterations remaining; `op i` is what `operation()` does on attempt `i`. -/
def retryOnBusyGo {T : Type} (maxRetries retryDelayMs : Nat) (op : Nat → Except JsError T) :
    Nat → Nat → RetryTrace T
  | _, 0 => ⟨.error maxRetriesError, 0, []⟩
  | i, fuel+1 =>
    match op i with
    | .ok v => ⟨.ok v, 1, []⟩
    | .error e =>
      if e.isBusy ∧ i < maxRetries - 1 then
        ⟨(retryOnBusyGo maxRetries retryDelayMs op (i+1) fuel).outcome,
          (retryOnBusyGo maxRetries retryDelayMs op (i+1) fuel).attempts + 1,
          retryDelayMs * (i + 1) :: (retryOnBusyGo maxRetries retryDelayMs op (i+1) fuel).sleeps⟩
      else ⟨.error e, 1, []⟩

/-- `retryOnBusy(operation)` with the store's `maxRetries` / `retryDelayMs`. -/
def retryOnBusy {T : Type} (maxRetries retryDelayMs : Nat)
    (op : Nat → Except JsError T) : RetryTrace T :=
  retryOnBusyGo maxRetries retryDelayMs op 0 maxRetries

/-- The always-busy error family used by the retry witness. -/
def busyError : JsError := ⟨some "SQLITE_BUSY", "database is locked"⟩

/-! ## Chat checkpoint storage (`SQLiteChatCheckpointStorage.js`). -/

/-- A row of the `Checkpoint` table (schema `db.sql.ts`):

    CREATE TABLE IF NOT EXISTS Checkpoint (
      id INTEGER PRIMARY KEY AUTOINCREMENT,
      label TEXT NOT NULL, messageId INTEGER NOT NULL,
      createdAt INTEGER NOT NULL DEFAULT (unixepoch() * 1000) );

There is no FOREIGN KEY on `messageId`.  The inserted `messageId` is the
caller-supplied id string (kept as text here; the claims do not depend on
its affinity conversion). -/
structure CheckpointRow where
  id : Nat
  label : String
  messageId : String
  createdAt : Nat
deriving DecidableEq, Repr

structure CheckpointDb where
  rows : List CheckpointRow
  nextId : Nat
deriving DecidableEq, Repr

/-- The `currentMessage` argument as used by `createCheckpoint`: only its
`id` property is read, which may itself be missing (`undefined`). -/
structure CheckpointMsgRef where
  id : Option String
deriving DecidableEq, Repr

/-- `createCheckpoint(label, currentMessage)`:

    if (!currentMessage || !currentMessage.id) throw new Error(
      "Invalid currentMessage provided for checkpoint creation");
    INSERT INTO Checkpoint (label, messageId) VALUES (?, ?) RETURNING *

JS falsiness of a string id means missing (`none`) or empty.  The insert
never consults the `ChatMessage` table (the `chatMessages` argument): the
SQL touches only `Checkpoint`, and the schema declares no foreign key on
`messageId`, so no existence check of the referenced turn happens. -/
def createCheckpoint (_chatMessages : List ChatMessageRow) (db : CheckpointDb)
    (label : String) (currentMessage : Option CheckpointMsgRef) (now : Nat) :
    Except String (CheckpointDb × CheckpointRow) :=
  match currentMessage with
  | none => .error "Invalid currentMessage provided for checkpoint creation"
  | some m =>
    match m.id with
    | none => .error "Invalid currentMessage provided for checkpoint creation"
    | some mid =>
      if mid = "" then .error "Invalid currentMessage provided for checkpoint creation"
      else
        let row : CheckpointRow := ⟨db.nextId, label, mid, now⟩
        .ok (⟨db.rows ++ [row], db.nextId + 1⟩, row)

/-! ## CLI command-history storage (`SQLiteCLIHistoryStorage`). -/

/-- `HistoryConfig`: both fields are optional in the source. -/
structure HistoryConfig where
  limit : Option Nat
  blacklist : Option (List String)

/-- The in-memory mutable state: `this.history` and `this.historyIndex`. -/
structure HistoryState where
  history : List String
  historyIndex : Nat
deriving DecidableEq, Repr

/-- `this.config.limit || 200` (JS `||`: a configured limit of 0 also falls
back to the default 200). -/
def limitOrDefault (cfg : HistoryConfig) : Nat :=
  match cfg.limit with
  | some n => if n = 0 then 200 else n
  | none => 200

/-- `this.config.blacklist && this.config.blacklist.includes(command)`. -/
def blacklisted (cfg : HistoryConfig) (command : String) : Bool :=
  match cfg.blacklist with
  | some bl => bl.contains command
  | none => false

/-- The last `n` elements of a list (JS `array.slice(-n)`). -/
def lastN {α : Type} (n : Nat) (l : List α) : List α := l.drop (l.length - n)

/-- `add(command)`, in-memory effect.  Skips blank (after trim),
blacklisted, and adjacent-duplicate commands; otherwise appends, trims the
cache to the last `limit` entries when it exceeds `limit`, and resets the
cursor past the end.  (The durable INSERT/DELETE mirror the in-memory list
and are not read back by `getAll`, which returns the in-memory copy.) -/
def addCommand (cfg : HistoryConfig) (s : HistoryState) (command : String) : HistoryState :=
  if jsTrim command = "" then s
  else if blacklisted cfg command then s
  else if s.history.getLast? = some command then s
  else if limitOrDefault cfg < (s.history ++ [command]).length then
    ⟨lastN (limitOrDefault cfg) (s.history ++ [command]),
      (lastN (limitOrDefault cfg) (s.history ++ [command])).length⟩
  else ⟨s.history ++ [command], (s.history ++ [command]).length⟩

/-- `getAll()`: a copy of the in-memory history, insertion order preserved. -/
def getAllCommands (s : HistoryState) : List String := s.history

/-! ## Chat message storage (`SQLiteChatMessageStorage`, source part with
`storeChat` / `retrieveMessageById` / `formatMessage`). -/

/-- A row of the `ChatSession` table (schema `db.sql.ts`). -/
structure ChatSessionRow where
  id : Nat
  title : String
  createdAt : Nat
deriving DecidableEq, Repr

/-- The two tables touched by the chat message storage, with their next
AUTOINCREMENT ids. -/
structure ChatDb where
  sessions : List ChatSessionRow
  messages : List ChatMessageRow
  nextSessionId : Nat
  nextMessageId : Nat
deriving DecidableEq, Repr

def emptyChatDb : ChatDb := ⟨[], [], 1, 1⟩

/-- An element of `request.messages`; only its `content` is read. -/
structure ChatMsgItem where
  content : Option String
deriving DecidableEq, Repr

/-- After group 1 has consumed `k` characters, can group 2 `(\s.*|$)` start
there?  `\s` needs a whitespace character at index `k`; `$` needs `k` to be
the end of the string. -/
def titleCond (cs : List Char) (k : Nat) : Bool :=
  k == cs.length ||
    (match (cs.drop k).head? with
     | some c => jsWs c
     | none => false)

/-- Backtracking of the greedy group 1 `(.{1,100})`: the largest group-1
length `k` with `1 ≤ k ≤ bound` at which group 2 can start. -/
def titleScan (cs : List Char) : Nat → Option Nat
  | 0 => none
  | k+1 => if titleCond cs (k+1) then some (k+1) else titleScan cs k

/-- `content.replace(/^(.{1,100})(\s.*|$)/, (_, a) => a)`.

Group 1 greedily takes up to 100 non-line-terminator characters and
backtracks until group 2 `(\s.*|$)` matches; the whole match is replaced by
group 1, any unmatched tail of the string remains.  If the regex does not
match, `replace` returns the string unchanged.  (Characters are modelled as
Unicode scalars rather than UTF-16 code units.) -/
def titleOfContent (s : String) : String :=
  match titleScan s.data (min 100 (s.data.takeWhile jsDot).length) with
  | none => s
  | some k =>
    if k = s.data.length then s
    else
      String.mk (s.data.take k ++
        s.data.drop (k + 1 + ((s.data.drop (k+1)).takeWhile jsDot).length))

/-- `lastMessage?.content?.replace(...) ?? "New Chat"`. -/
def deriveTitle (content : Option String) : String :=
  match content with
  | some s => titleOfContent s
  | none => "New Chat"

/-- `request.messages?.[request.messages.length - 1]?.content`: the content
of the last message of the request, if any. -/
def lastContent {Req : Type} (getMsgs : Req → Option (List ChatMsgItem)) (request : Req) :
    Option String :=
  ((getMsgs request).bind List.getLast?).bind ChatMsgItem.content

/-- Modelled from the amended claim wording: for single-line content longer
than 100 characters, the title is the longest prefix of at most 100
characters whose following character is whitespace — the cut falls at the
last whitespace boundary at or before the 100-character cutoff; with no
such boundary, or with content of at most 100 characters, the full content
is used. -/
def titleBySpecLastWs (s : String) : String :=
  if s.data.length ≤ 100 then s
  else
    match titleScan s.data 100 with
    | none => s
    | some k => String.mk (s.data.take k)

/-- The message object assembled by `formatMessage` (a `StoredChatMessage`):
`id`/`sessionId` stringified, `request`/`response` parsed back from JSON.
`createdAt`/`updatedAt` are `none` when the row view lacks those columns
(the `RETURNING` clause of `storeChat` omits them). -/
structure FormattedMessage (Req Resp : Type) where
  id : String
  sessionId : String
  request : Req
  response : Option Resp
  previousMessageId : Option String
  createdAt : Option Nat
  updatedAt : Option Nat
deriving DecidableEq, Repr

/-- The row view handed to `formatMessage`: either the `RETURNING id,
sessionId, previousMessageId, request, response` projection of the insert
(no timestamps) or a full `SELECT *` row. -/
structure MessageRowView where
  id : Nat
  sessionId : Nat
  previousMessageId : Option Nat
  request : String
  response : Option String
  createdAt : Option Nat
  updatedAt : Option Nat
deriving DecidableEq, Repr

/-- `msg.response ? JSON.parse(msg.response) : null` — a NULL column or an
empty string (both falsy) give `null`; otherwise the JSON is parsed. -/
def respField {Resp : Type} (respCodec : JsonCodec Resp) :
    Option String → Except String (Option Resp)
  | none => .ok none
  | some s =>
    if s = "" then .ok none
    else
      match respCodec.parse s with
      | none => .error "JSON.parse failed on response"
      | some r => .ok (some r)

/-- `formatMessage(msg)`:

    { id: msg.id.toString(), sessionId: msg.sessionId.toString(),
      request: JSON.parse(msg.request),
      response: msg.response ? JSON.parse(msg.response) : null,
      previousMessageId: msg.previousMessageId?.toString?.(),
      createdAt: msg.createdAt, updatedAt: msg.updatedAt }
-/
def formatMessage {Req Resp : Type} (reqCodec : JsonCodec Req) (respCodec : JsonCodec Resp)
    (msg : MessageRowView) : Except String (FormattedMessage Req Resp) :=
  match reqCodec.parse msg.request with
  | none => .error "JSON.parse failed on request"
  | some request =>
    match respField respCodec msg.response with
    | .error e => .error e
    | .ok response =>
      .ok ⟨toString msg.id, toString msg.sessionId, request, response,
        msg.previousMessageId.map toString, msg.createdAt, msg.updatedAt⟩

/-- The session-creation block of `storeChat`, run when
`currentMessage?.sessionId` is falsy:

    INSERT INTO ChatSession (title) VALUES (?) RETURNING *

with the title derived from the last request message.  Returns the updated
database and the new session's id. -/
def sessionStep {Req : Type} (getMsgs : Req → Option (List ChatMsgItem)) (db : ChatDb)
    (request : Req) (now : Nat) : ChatDb × Nat :=
  let session : ChatSessionRow := ⟨db.nextSessionId, deriveTitle (lastContent getMsgs request), now⟩
  ({db with sessions := db.sessions ++ [session], nextSessionId := db.nextSessionId + 1},
    session.id)

/-- `storeChat(currentMessage, request, response)`:

resolves the session id (`parseInt(currentMessage.sessionId)` when present
and truthy — a non-numeric string makes the subsequent NOT NULL INTEGER
insert fail, modelled as an error — otherwise `sessionStep`), then

    INSERT INTO ChatMessage (sessionId, previousMessageId, request, response)
    VALUES (?, ?, ?, ?)
    RETURNING id, sessionId, previousMessageId, request, response

with `request`/`response` JSON-stringified and `previousMessageId` taken
from `currentMessage?.id` (text with numeric affinity into an INTEGER
column), and finally `formatMessage` on the returned projection. -/
def storeChat {Req Resp : Type} (reqCodec : JsonCodec Req) (respCodec : JsonCodec Resp)
    (getMsgs : Req → Option (List ChatMsgItem)) (db : ChatDb)
    (currentMessage : Option (FormattedMessage Req Resp)) (request : Req) (response : Resp)
    (now : Nat) : Except String (ChatDb × FormattedMessage Req Resp) :=
  match
    (match currentMessage with
     | some m =>
       if m.sessionId ≠ "" then
         match m.sessionId.toNat? with
         | some sid => Except.ok (db, sid)
         | none => Except.error "NOT NULL constraint failed: ChatMessage.sessionId"
       else Except.ok (sessionStep getMsgs db request now)
     | none => Except.ok (sessionStep getMsgs db request now)) with
  | .error e => .error e
  | .ok (db2, sessionId) =>
    let row : ChatMessageRow :=
      ⟨db2.nextMessageId, currentMessage.bind (fun m => m.id.toNat?), sessionId,
        reqCodec.stringify request, some (respCodec.stringify response), now, now⟩
    let db3 : ChatDb :=
      {db2 with messages := db2.messages ++ [row], nextMessageId := db2.nextMessageId + 1}
    match formatMessage reqCodec respCodec
        ⟨row.id, row.sessionId, row.previousMessageId, row.request, row.response,
          none, none⟩ with
    | .error e => .error e
    | .ok m => .ok (db3, m)

/-- `retrieveMessageById(id)`:

    SELECT * FROM ChatMessage WHERE id = ?

throws when nothing matches, otherwise `formatMessage` on the full row. -/
def retrieveMessageById {Req Resp : Type} (reqCodec : JsonCodec Req)
    (respCodec : JsonCodec Resp) (db : ChatDb) (id : String) :
    Except String (FormattedMessage Req Resp) :=
  match db.messages.find? (fun r => toString r.id == id) with
  | none => .error ("Message with id " ++ id ++ " not found")
  | some r =>
    formatMessage reqCodec respCodec
      ⟨r.id, r.sessionId, r.previousMessageId, r.request, r.response,
        some r.createdAt, some r.updatedAt⟩

/-- Content of the C9 counterexample: whitespace at index 10 (before the
100-character cutoff) and at index 106 (after it), total length 127. -/
def c9content : String :=
  String.mk (List.replicate 10 'a' ++ ' ' :: List.replicate 95 'b' ++ ' ' :: List.replicate 20 'c')

/-- What claim C9 predicts for `c9content`: the prefix up to the first
whitespace boundary after the 100-character cutoff (106 characters). -/
def c9claimTitle : String :=
  String.mk (List.replicate 10 'a' ++ ' ' :: List.replicate 95 'b')

/-- The 205 distinct commands used by the C8 witness. -/
def c8cmds : List String := (List.range 205).map (fun i => "c" ++ toString i)

set_option maxRecDepth 8192

set_option maxHeartbeats 4000000

/-! ## Theorems -/

theorem historyFrom_succ (db : List ChatMessageRow) (fuel : Nat) (i : Nat) :
    historyFrom db (fuel+1) (some i) =
      match lookupMessage db i with
      | none => some []
      | some r => (historyFrom db fuel r.previousMessageId).map (r :: ·) := rfl

theorem historyFrom_none_id (db : List ChatMessageRow) (fuel : Nat) :
    historyFrom db fuel none = some [] := by
  cases fuel <;> rfl

theorem cycle_historyFrom_none (fuel : Nat) :
    historyFrom cycleDb fuel (some 1) = none ∧ historyFrom cycleDb fuel (some 2) = none := by
  induction fuel with
  | zero => exact ⟨rfl, rfl⟩
  | succ n ih =>
    constructor
    · rw [historyFrom_succ]
      have h1 : lookupMessage cycleDb 1 = some cycRowA := rfl
      rw [h1]
      simp [cycRowA, ih.2]
    · rw [historyFrom_succ]
      have h2 : lookupMessage cycleDb 2 = some cycRowB := rfl
      rw [h2]
      simp [cycRowB, ih.1]

/-- C1 (amended): on an acyclic chain root → A → B → C,
`getChatHistoryByMessageId(C.id)` terminates and returns exactly the four
turns in target-to-root order `[C, B, A, root]` (newest first) — the reverse
of the root-to-target order stated by the claim — for every sufficient step
budget. -/
theorem C1_ancestry_target_to_root (db : List ChatMessageRow)
    (r0 r1 r2 r3 : ChatMessageRow)
    (h0 : lookupMessage db r0.id = some r0) (h1 : lookupMessage db r1.id = some r1)
    (h2 : lookupMessage db r2.id = some r2) (h3 : lookupMessage db r3.id = some r3)
    (p0 : r0.previousMessageId = none) (p1 : r1.previousMessageId = some r0.id)
    (p2 : r2.previousMessageId = some r1.id) (p3 : r3.previousMessageId = some r2.id)
    (fuel : Nat) :
    getChatHistoryByMessageId db r3.id (fuel+1+1+1+1) = some [r3, r2, r1, r0] := by
  show historyFrom db (fuel+1+1+1+1) (some r3.id) = some [r3, r2, r1, r0]
  simp [historyFrom_succ, h3, p3, h2, p2, h1, p1, h0, p0, historyFrom_none_id]

/-- C1 witness: the theorem applied to the concrete chain `chainDb`. -/
theorem C1_witness :
    getChatHistoryByMessageId chainDb 4 10 = some [rowC, rowB, rowA, rowRoot] :=
  C1_ancestry_target_to_root chainDb rowRoot rowA rowB rowC
    rfl rfl rfl rfl rfl rfl rfl rfl 6

/-- C1 counterexample: on the concrete chain root → A → B → C the query
returns `[C, B, A, root]`, not the `[root, A, B, C]` (root-to-target,
oldest-first) order the claim states. -/
theorem C1_counterexample :
    getChatHistoryByMessageId chainDb 4 10 = some [rowC, rowB, rowA, rowRoot] ∧
      getChatHistoryByMessageId chainDb 4 10 ≠ some [rowRoot, rowA, rowB, rowC] := by
  constructor
  · decide
  · decide

/-- C2 (amended): on the cyclic state `cycleDb` (A.previousTurnId = B.id,
B.previousTurnId = A.id), `getChatHistoryByMessageId(A.id)` never
completes: the `UNION ALL` recursive CTE keeps revisiting the two turns, so
no step budget suffices, and no CorruptChainError (which does not exist in
the code) is ever raised. -/
theorem C2_cycle_no_termination (fuel : Nat) :
    getChatHistoryByMessageId cycleDb 1 fuel = none :=
  (cycle_historyFrom_none fuel).1

/-- C2 counterexample: the traversal on the cycle does not terminate for
any step budget, contradicting the claimed termination-with-error. -/
theorem C2_counterexample :
    ¬ ∃ fuel, (getChatHistoryByMessageId cycleDb 1 fuel).isSome = true := by
  rintro ⟨fuel, h⟩
  rw [show getChatHistoryByMessageId cycleDb 1 fuel = none from
    (cycle_historyFrom_none fuel).1] at h
  exact Bool.false_ne_true h

/-- C5 (amended): for a turn id matching no stored row, the query succeeds
with the empty sequence (the recursive CTE has an empty seed), rather than
failing with a NotFoundError. -/
theorem C5_unknown_id_empty (db : List ChatMessageRow) (i : Nat) (fuel : Nat)
    (h : lookupMessage db i = none) :
    getChatHistoryByMessageId db i fuel = some [] := by
  cases fuel with
  | zero => show (match lookupMessage db i with | none => some [] | some _ => none) = some []; rw [h]
  | succ n =>
    rw [show getChatHistoryByMessageId db i (n+1) = historyFrom db (n+1) (some i) from rfl,
      historyFrom_succ, h]

/-- C5 witness: the theorem applied to `chainDb` and the absent id 99. -/
theorem C5_witness :
    lookupMessage chainDb 99 = none ∧ getChatHistoryByMessageId chainDb 99 5 = some [] :=
  ⟨by decide, C5_unknown_id_empty chainDb 99 5 (by decide)⟩

/-- C5 counterexample: on the unknown id 99 the query succeeds with a value
(the empty list); it does not fail with a NotFoundError as claimed. -/
theorem C5_counterexample :
    (getChatHistoryByMessageId chainDb 99 5).isSome = true ∧
      getChatHistoryByMessageId chainDb 99 5 = some [] := by
  constructor
  · decide
  · decide

/-- C3 (amended): storing a checkpoint and retrieving it with the id string
returned by `storeCheckpoint` (the row id — the key `retrieveCheckpoint`
actually queries by, despite its parameter name) yields a checkpoint whose
`state` is deep-equal to the original payload.  The returned object's
`agentId` field is the lookup key itself, and its `createdAt` is undefined
(`none`) because the retrieval SELECT does not project that column.
`hfresh` is primary-key freshness of the AUTOINCREMENT id. -/
theorem C3_roundtrip_by_returned_id {V : Type} (codec : JsonCodec V) (db : AgentStateDb)
    (cp : NamedAgentCheckpoint V)
    (hser : codec.Serializable cp.state)
    (hfresh : ∀ r ∈ db.rows, toString r.id ≠ toString db.nextId) :
    retrieveCheckpoint codec (storeCheckpoint codec db cp).1 (storeCheckpoint codec db cp).2 =
      .ok (some ⟨toString db.nextId, cp.name, toString db.nextId, cp.state, none⟩) := by
  unfold storeCheckpoint retrieveCheckpoint
  have hnone : db.rows.find? (fun r => toString r.id == toString db.nextId) = none := by
    rw [List.find?_eq_none]
    intro r hr
    simpa using hfresh r hr
  rw [List.find?_append, hnone]
  simp [JsonCodec.Serializable] at hser
  simp [List.find?, hser]

/-- C3 witness: the theorem applied to a fresh table and a concrete payload. -/
theorem C3_witness :
    retrieveCheckpoint strCodec
        (storeCheckpoint strCodec emptyAgentDb ⟨"agent-1", "main", "hello", 5⟩).1
        (storeCheckpoint strCodec emptyAgentDb ⟨"agent-1", "main", "hello", 5⟩).2 =
      .ok (some ⟨"1", "main", "1", "hello", none⟩) :=
  (C3_roundtrip_by_returned_id strCodec emptyAgentDb ⟨"agent-1", "main", "hello", 5⟩
    rfl (by simp [emptyAgentDb])).trans (by decide)

/-- C3 counterexample: retrieving with the logical key — here the agentId
"agent-1" under which the checkpoint was just stored — returns absence, not
the stored payload, because `retrieveCheckpoint` matches its argument
against the row id, not against `(agentId, name)`. -/
theorem C3_counterexample :
    retrieveCheckpoint strCodec
        (storeCheckpoint strCodec emptyAgentDb ⟨"agent-1", "main", "hello", 5⟩).1 "agent-1" =
      .ok none ∧
      (.ok none : Except String (Option (StoredAgentCheckpoint String))) ≠
        .ok (some ⟨"1", "main", "agent-1", "hello", none⟩) := by
  constructor
  · decide
  · decide

/-- C6 (code bug): two `storeCheckpoint` calls with the same logical key
`(agentId, name)` leave TWO rows for that key, each with its own payload —
the `INSERT OR REPLACE` never replaces because the `AgentState` schema has
no UNIQUE constraint on `(agentId, name)`, contradicting the documented
"stores or updates" semantics. -/
theorem C6_duplicate_rows :
    countAgentKey
        (storeCheckpoint strCodec
          (storeCheckpoint strCodec emptyAgentDb ⟨"agent-1", "main", "p1", 1⟩).1
          ⟨"agent-1", "main", "p2", 2⟩).1 "agent-1" "main" = 2 ∧
      ((storeCheckpoint strCodec
          (storeCheckpoint strCodec emptyAgentDb ⟨"agent-1", "main", "p1", 1⟩).1
          ⟨"agent-1", "main", "p2", 2⟩).1.rows.map AgentStateRow.state) = ["p1", "p2"] := by
  constructor
  · decide
  · decide

theorem retryOnBusyGo_succ {T : Type} (maxRetries retryDelayMs : Nat)
    (op : Nat → Except JsError T) (i fuel : Nat) :
    retryOnBusyGo maxRetries retryDelayMs op i (fuel+1) =
      match op i with
      | .ok v => ⟨.ok v, 1, []⟩
      | .error e =>
        if e.isBusy ∧ i < maxRetries - 1 then
          ⟨(retryOnBusyGo maxRetries retryDelayMs op (i+1) fuel).outcome,
            (retryOnBusyGo maxRetries retryDelayMs op (i+1) fuel).attempts + 1,
            retryDelayMs * (i + 1) :: (retryOnBusyGo maxRetries retryDelayMs op (i+1) fuel).sleeps⟩
        else ⟨.error e, 1, []⟩ := rfl

theorem range_map_backoff (d i n : Nat) :
    (List.range (n+1)).map (fun j => d * (i + j + 1)) =
      d * (i + 1) :: (List.range n).map (fun j => d * ((i+1) + j + 1)) := by
  rw [List.range_succ_eq_map, List.map_cons, List.map_map]
  refine congrArg₂ List.cons ?_ ?_
  · show d * (i + 0 + 1) = d * (i + 1)
    ring_nf
  · refine List.map_congr_left (fun a _ => ?_)
    show d * (i + (a + 1) + 1) = d * ((i + 1) + a + 1)
    ring_nf

theorem retryGo_busy {T : Type} (maxRetries retryDelayMs : Nat)
    (op : Nat → Except JsError T) (e : Nat → JsError)
    (hop : ∀ k, k < maxRetries → op k = .error (e k))
    (hbusy : ∀ k, k < maxRetries → (e k).isBusy = true) :
    ∀ fuel i, i + fuel = maxRetries → 1 ≤ fuel →
      retryOnBusyGo maxRetries retryDelayMs op i fuel =
        ⟨.error (e (maxRetries - 1)), fuel,
          (List.range (fuel - 1)).map (fun j => retryDelayMs * (i + j + 1))⟩ := by
  intro fuel
  induction fuel with
  | zero => intro i h0 h1; omega
  | succ f ih =>
    intro i hi _
    rw [retryOnBusyGo_succ, hop i (by omega)]
    by_cases hlast : i < maxRetries - 1
    · have hf : 1 ≤ f := by omega
      simp only [if_pos (And.intro (hbusy i (by omega)) hlast)]
      rw [ih (i+1) (by omega) hf]
      obtain ⟨g, rfl⟩ : ∃ g, f = g + 1 := ⟨f - 1, by omega⟩
      have hsl : retryDelayMs * (i+1) ::
          (List.range ((g+1) - 1)).map (fun j => retryDelayMs * ((i+1) + j + 1)) =
          (List.range (((g+1)+1) - 1)).map (fun j => retryDelayMs * (i + j + 1)) := by
        simp only [Nat.add_sub_cancel]
        exact (range_map_backoff retryDelayMs i g).symm
      exact congrArg (RetryTrace.mk (.error (e (maxRetries - 1))) ((g+1)+1)) hsl
    · have hnot : ¬((e i).isBusy ∧ i < maxRetries - 1) := fun hc => hlast hc.2
      have hi' : i = maxRetries - 1 := by omega
      have hf : f = 0 := by omega
      simp only [if_neg hnot]
      subst hf
      rw [hi']
      simp

theorem retryGo_nonbusy {T : Type} (maxRetries retryDelayMs : Nat)
    (op : Nat → Except JsError T) (e : Nat → JsError) (j : Nat)
    (hj : j < maxRetries)
    (hbefore : ∀ k, k < j → op k = .error (e k) ∧ (e k).isBusy = true)
    (hopj : op j = .error (e j)) (hnb : (e j).isBusy = false) :
    ∀ fuel i, i + fuel = maxRetries → i ≤ j →
      retryOnBusyGo maxRetries retryDelayMs op i fuel =
        ⟨.error (e j), (j - i) + 1,
          (List.range (j - i)).map (fun t => retryDelayMs * (i + t + 1))⟩ := by
  intro fuel
  induction fuel with
  | zero => intro i h0 hij; omega
  | succ f ih =>
    intro i hi hij
    rw [retryOnBusyGo_succ]
    by_cases hij' : i = j
    · subst hij'
      rw [hopj]
      have hnot : ¬((e i).isBusy ∧ i < maxRetries - 1) := fun hc => by
        have hb := hc.1
        rw [hnb] at hb
        exact Bool.false_ne_true hb
      simp only [if_neg hnot]
      simp [Nat.sub_self]
    · have hlt : i < j := lt_of_le_of_ne hij hij'
      rw [(hbefore i hlt).1]
      simp only [if_pos (And.intro (hbefore i hlt).2 (show i < maxRetries - 1 by omega))]
      rw [ih (i+1) (by omega) (by omega)]
      obtain ⟨k, hk⟩ : ∃ k, j - i = k + 1 := ⟨j - i - 1, by omega⟩
      have hk2 : j - (i+1) = k := by omega
      have hat : (j - (i+1)) + 1 + 1 = (j - i) + 1 := by omega
      have hsl : retryDelayMs * (i+1) ::
          (List.range (j - (i+1))).map (fun t => retryDelayMs * ((i+1) + t + 1)) =
          (List.range (j - i)).map (fun t => retryDelayMs * (i + t + 1)) := by
        rw [hk2, hk, range_map_backoff]
      exact congrArg₂ (RetryTrace.mk (.error (e j))) hat hsl

/-- C4: the `retryOnBusy` wrapper.  First conjunct: if every attempt throws
a Busy (`SQLITE_BUSY`) error, the wrapper makes exactly `maxRetries`
attempts, sleeping `retryDelayMs * attemptNumber` between consecutive
attempts (linear backoff), and finally re-raises the last attempt's Busy
error unmodified.  Second conjunct: a non-Busy error at attempt `j` (after
`j` Busy attempts) propagates immediately: `j+1` attempts total, no sleep
after it. -/
theorem C4_retry_policy {T : Type} (maxRetries retryDelayMs : Nat)
    (op : Nat → Except JsError T) (e : Nat → JsError) (hmax : 1 ≤ maxRetries) :
    ((∀ i, i < maxRetries → op i = .error (e i) ∧ (e i).isBusy = true) →
      retryOnBusy maxRetries retryDelayMs op =
        ⟨.error (e (maxRetries - 1)), maxRetries,
          (List.range (maxRetries - 1)).map (fun j => retryDelayMs * (j + 1))⟩) ∧
    (∀ j, j < maxRetries → (∀ i, i < j → op i = .error (e i) ∧ (e i).isBusy = true) →
      op j = .error (e j) → (e j).isBusy = false →
      retryOnBusy maxRetries retryDelayMs op =
        ⟨.error (e j), j + 1, (List.range j).map (fun t => retryDelayMs * (t + 1))⟩) := by
  constructor
  · intro h
    rw [retryOnBusy, retryGo_busy maxRetries retryDelayMs op e (fun k hk => (h k hk).1)
        (fun k hk => (h k hk).2) maxRetries 0 (by omega) hmax]
    refine congrArg (RetryTrace.mk (.error (e (maxRetries - 1))) maxRetries) ?_
    refine List.map_congr_left (fun a _ => ?_)
    show retryDelayMs * (0 + a + 1) = retryDelayMs * (a + 1)
    ring_nf
  · intro j hj hbefore hopj hnb
    rw [retryOnBusy, retryGo_nonbusy maxRetries retryDelayMs op e j hj hbefore hopj hnb
        maxRetries 0 (by omega) (by omega)]
    have hat : (j - 0) + 1 = j + 1 := by omega
    have hsl : (List.range (j - 0)).map (fun t => retryDelayMs * (0 + t + 1)) =
        (List.range j).map (fun t => retryDelayMs * (t + 1)) := by
      rw [Nat.sub_zero]
      refine List.map_congr_left (fun a _ => ?_)
      show retryDelayMs * (0 + a + 1) = retryDelayMs * (a + 1)
      ring_nf
    exact congrArg₂ (RetryTrace.mk (.error (e j))) hat hsl

/-- C4 witness: always-Busy operation with the default configuration
(maxRetries = 3, retryDelayMs = 100): exactly 3 attempts, sleeps
[100, 200], the Busy error re-raised unmodified. -/
theorem C4_witness :
    retryOnBusy 3 100 (fun _ => (.error busyError : Except JsError Unit)) =
      ⟨.error busyError, 3, [100, 200]⟩ :=
  ((C4_retry_policy 3 100 _ (fun _ => busyError) (by omega)).1
    (fun _ _ => ⟨rfl, rfl⟩)).trans (by decide)

/-- C7 (amended): `createCheckpoint` fails (with the invalid-message error)
exactly when the supplied turn id is absent (no message, no id property, or
an empty string); whenever a non-empty id is supplied it succeeds and
inserts the row — it never checks that the id resolves to an existing
stored turn (the `Checkpoint` schema has no foreign key on `messageId`). -/
theorem C7_no_existence_check (msgs : List ChatMessageRow) (db : CheckpointDb)
    (label : String) (cm : Option CheckpointMsgRef) (now : Nat) :
    (∃ out, createCheckpoint msgs db label cm now = .ok out) ↔
      (∃ mid, cm.bind CheckpointMsgRef.id = some mid ∧ mid ≠ "") := by
  match cm with
  | none => simp [createCheckpoint]
  | some ⟨none⟩ => simp [createCheckpoint]
  | some ⟨some mid⟩ =>
    by_cases h : mid = ""
    · subst h
      simp [createCheckpoint]
    · simp [createCheckpoint, h]

/-- C7 counterexample: with no stored turns at all, creating a checkpoint
for turn id "42" succeeds, whereas the claim says it must fail with a
ValidationError when the id does not resolve to an existing turn. -/
theorem C7_counterexample :
    lookupMessage [] 42 = none ∧
      createCheckpoint [] ⟨[], 1⟩ "mark" (some ⟨some "42"⟩) 7 =
        .ok (⟨[⟨1, "mark", "42", 7⟩], 2⟩, ⟨1, "mark", "42", 7⟩) := by
  constructor
  · rfl
  · rfl

theorem lastN_of_le {α : Type} (n : Nat) (l : List α) (h : l.length ≤ n) : lastN n l = l := by
  unfold lastN
  rw [Nat.sub_eq_zero_of_le h, List.drop_zero]

theorem lastN_length_le {α : Type} (n : Nat) (l : List α) : (lastN n l).length ≤ n := by
  unfold lastN
  rw [List.length_drop]
  omega

theorem lastN_append_absorb {α : Type} (n : Nat) (x ys : List α) :
    lastN n (lastN n x ++ ys) = lastN n (x ++ ys) := by
  unfold lastN
  rw [← List.drop_append_of_le_length (show x.length - n ≤ x.length by omega),
    List.drop_drop, List.length_drop, List.length_append]
  congr 1
  omega

theorem lastN_concat_getLast? {α : Type} (n : Nat) (hn : 1 ≤ n) (h : List α) (c : α) :
    (lastN n (h ++ [c])).getLast? = some c := by
  unfold lastN
  simp only [List.length_append, List.length_singleton]
  rw [List.drop_append_of_le_length (show h.length + 1 - n ≤ h.length by omega)]
  exact List.getLast?_concat _

theorem one_le_limitOrDefault (cfg : HistoryConfig) : 1 ≤ limitOrDefault cfg := by
  obtain ⟨lim, bl⟩ := cfg
  cases lim with
  | none => exact (by decide : (1:Nat) ≤ 200)
  | some n =>
    show 1 ≤ if n = 0 then 200 else n
    by_cases hn : n = 0
    · rw [if_pos hn]
      decide
    · rw [if_neg hn]
      omega

theorem addCommand_added (cfg : HistoryConfig) (s : HistoryState) (c : String)
    (h1 : ¬ jsTrim c = "") (h2 : blacklisted cfg c = false)
    (h3 : ¬ s.history.getLast? = some c) :
    addCommand cfg s c =
      ⟨lastN (limitOrDefault cfg) (s.history ++ [c]),
        (lastN (limitOrDefault cfg) (s.history ++ [c])).length⟩ := by
  unfold addCommand
  rw [if_neg h1, if_neg (by simp [h2]), if_neg h3]
  by_cases hlen : limitOrDefault cfg < (s.history ++ [c]).length
  · rw [if_pos hlen]
  · rw [if_neg hlen]
    have he : lastN (limitOrDefault cfg) (s.history ++ [c]) = s.history ++ [c] :=
      lastN_of_le _ _ (by omega)
    rw [he]

theorem foldl_addCommand (cfg : HistoryConfig) :
    ∀ (cs : List String) (s : HistoryState),
      (∀ c ∈ cs, ¬ jsTrim c = "") → (∀ c ∈ cs, blacklisted cfg c = false) →
      cs.Chain' (fun a b => a ≠ b) →
      (∀ x, cs.head? = some x → ¬ s.history.getLast? = some x) →
      s.history.length ≤ limitOrDefault cfg →
      (List.foldl (addCommand cfg) s cs).history =
        lastN (limitOrDefault cfg) (s.history ++ cs) := by
  intro cs
  induction cs with
  | nil =>
    intro s _ _ _ _ hlen
    rw [List.foldl_nil, List.append_nil, lastN_of_le _ _ hlen]
  | cons c cs ih =>
    intro s h1 h2 hchain hhead hlen
    rw [List.foldl_cons,
      addCommand_added cfg s c (h1 c (by simp)) (h2 c (by simp)) (hhead c rfl)]
    have hgl : (lastN (limitOrDefault cfg) (s.history ++ [c])).getLast? = some c :=
      lastN_concat_getLast? _ (one_le_limitOrDefault cfg) _ _
    have hchain2 := List.chain'_cons'.mp hchain
    have htail := ih ⟨lastN (limitOrDefault cfg) (s.history ++ [c]),
        (lastN (limitOrDefault cfg) (s.history ++ [c])).length⟩
      (fun d hd => h1 d (by simp [hd])) (fun d hd => h2 d (by simp [hd])) hchain2.2
      (fun x hx heq => by
        rw [show (⟨lastN (limitOrDefault cfg) (s.history ++ [c]),
            (lastN (limitOrDefault cfg) (s.history ++ [c])).length⟩ :
            HistoryState).history = lastN (limitOrDefault cfg) (s.history ++ [c]) from rfl,
          hgl] at heq
        exact hchain2.1 x (Option.mem_def.mpr hx) (Option.some.inj heq))
      (lastN_length_le _ _)
    rw [htail]
    show lastN (limitOrDefault cfg) (lastN (limitOrDefault cfg) (s.history ++ [c]) ++ cs) =
      lastN (limitOrDefault cfg) (s.history ++ c :: cs)
    rw [lastN_append_absorb, List.append_assoc, List.singleton_append]

/-- C8: starting from any reachable history state (cache within the limit)
and adding limit + k = 205 distinct, non-blank, non-blacklisted commands
(none equal to the current last entry, so no add is suppressed), `getAll()`
returns exactly the last 200 commands added, in insertion order. -/
theorem C8_eviction_bound (cfg : HistoryConfig) (s : HistoryState) (cs : List String)
    (hlimit : cfg.limit = some 200)
    (hcount : cs.length = 205)
    (h1 : ∀ c ∈ cs, ¬ jsTrim c = "")
    (h2 : ∀ c ∈ cs, blacklisted cfg c = false)
    (hnodup : cs.Nodup)
    (hhead : ∀ x, cs.head? = some x → ¬ s.history.getLast? = some x)
    (hlen : s.history.length ≤ 200) :
    getAllCommands (List.foldl (addCommand cfg) s cs) = cs.drop 5 ∧
      (getAllCommands (List.foldl (addCommand cfg) s cs)).length = 200 := by
  have hld : limitOrDefault cfg = 200 := by
    unfold limitOrDefault
    rw [hlimit]
    rfl
  have hget : getAllCommands (List.foldl (addCommand cfg) s cs) = cs.drop 5 := by
    show (List.foldl (addCommand cfg) s cs).history = cs.drop 5
    rw [foldl_addCommand cfg cs s h1 h2 (List.Pairwise.chain' hnodup) hhead
      (by rw [hld]; exact hlen), hld]
    unfold lastN
    rw [List.length_append, hcount,
      show s.history.length + 205 - 200 = s.history.length + 5 by omega,
      List.drop_append]
  refine ⟨hget, ?_⟩
  rw [hget, List.length_drop, hcount]

/-- C8 witness: the theorem applied to an empty starting state and 205
concrete distinct commands. -/
theorem C8_witness :
    getAllCommands (List.foldl (addCommand ⟨some 200, none⟩) ⟨[], 0⟩ c8cmds) = c8cmds.drop 5 ∧
      (getAllCommands (List.foldl (addCommand ⟨some 200, none⟩) ⟨[], 0⟩ c8cmds)).length = 200 :=
  C8_eviction_bound ⟨some 200, none⟩ ⟨[], 0⟩ c8cmds rfl (by decide) (by decide)
    (fun c _ => rfl) (by decide) (fun x _ heq => Option.noConfusion heq) (by decide)

theorem titleScan_succ (cs : List Char) (m : Nat) :
    titleScan cs (m+1) = if titleCond cs (m+1) then some (m+1) else titleScan cs m := rfl

theorem titleScan_eq_some (cs : List Char) :
    ∀ (M k : Nat), titleScan cs M = some k → 1 ≤ k ∧ k ≤ M ∧ titleCond cs k = true := by
  intro M
  induction M with
  | zero => intro k h; cases h
  | succ m ih =>
    intro k h
    rw [titleScan_succ] at h
    by_cases hc : titleCond cs (m+1) = true
    · rw [if_pos hc] at h
      cases h
      exact ⟨by omega, by omega, hc⟩
    · rw [if_neg hc] at h
      obtain ⟨h1, h2, h3⟩ := ih k h
      exact ⟨h1, by omega, h3⟩

theorem titleScan_at_length (cs : List Char) (h1 : 1 ≤ cs.length) :
    titleScan cs cs.length = some cs.length := by
  obtain ⟨m, hm⟩ : ∃ m, cs.length = m + 1 := ⟨cs.length - 1, by omega⟩
  rw [hm, titleScan_succ]
  have hc : titleCond cs (m+1) = true := by
    unfold titleCond
    rw [← hm]
    simp
  rw [if_pos hc]

/-- On single-line content the regex replacement coincides with the amended
specification: the cut falls at the last whitespace boundary at or before
the 100-character cutoff (full content when it is at most 100 characters or
has no such boundary). -/
theorem titleOfContent_singleLine (s : String) (h : ∀ c ∈ s.data, jsDot c = true) :
    titleOfContent s = titleBySpecLastWs s := by
  unfold titleOfContent titleBySpecLastWs
  rw [List.takeWhile_eq_self_iff.mpr h]
  by_cases hlen : s.data.length ≤ 100
  · rw [if_pos hlen, min_eq_right hlen]
    by_cases h0 : s.data.length = 0
    · rw [h0]
      rfl
    · rw [titleScan_at_length s.data (by omega)]
      simp only []
      simp
  · rw [if_neg hlen, min_eq_left (by omega)]
    cases hscan : titleScan s.data 100 with
    | none => rfl
    | some k =>
      obtain ⟨hk1, hk2, _⟩ := titleScan_eq_some s.data 100 k hscan
      have hkl : ¬ k = s.data.length := by omega
      simp only []
      rw [if_neg hkl]
      have hr : ((s.data.drop (k+1)).takeWhile jsDot).length = (s.data.drop (k+1)).length := by
        rw [List.takeWhile_eq_self_iff.mpr (fun c hc => h c (List.mem_of_mem_drop hc))]
      rw [hr, List.length_drop,
        show k + 1 + (s.data.length - (k+1)) = s.data.length by omega,
        List.drop_length, List.append_nil]

/-- Inversion of a successful `storeChat`: the message row appended to the
`ChatMessage` table and the `formatMessage` call that produced the returned
message. -/
theorem storeChat_ok_shape {Req Resp : Type} (reqCodec : JsonCodec Req)
    (respCodec : JsonCodec Resp) (getMsgs : Req → Option (List ChatMsgItem)) (db : ChatDb)
    (cm : Option (FormattedMessage Req Resp)) (request : Req) (response : Resp) (now : Nat)
    (db' : ChatDb) (m : FormattedMessage Req Resp)
    (hok : storeChat reqCodec respCodec getMsgs db cm request response now = .ok (db', m)) :
    ∃ sid,
      db'.messages = db.messages ++
        [⟨db.nextMessageId, cm.bind (fun x => x.id.toNat?), sid,
          reqCodec.stringify request, some (respCodec.stringify response), now, now⟩] ∧
      formatMessage reqCodec respCodec
        ⟨db.nextMessageId, sid, cm.bind (fun x => x.id.toNat?),
          reqCodec.stringify request, some (respCodec.stringify response), none, none⟩ =
        .ok m := by
  cases cm with
  | none =>
    simp only [storeChat, sessionStep, Option.bind] at hok
    cases hfm : formatMessage reqCodec respCodec
        (⟨db.nextMessageId, db.nextSessionId, none,
          reqCodec.stringify request, some (respCodec.stringify response), none, none⟩ :
          MessageRowView) with
    | error e =>
      rw [hfm] at hok
      cases hok
    | ok m2 =>
      rw [hfm] at hok
      cases hok
      exact ⟨db.nextSessionId, rfl, hfm⟩
  | some mm =>
    by_cases hs : mm.sessionId = ""
    · simp only [storeChat, sessionStep, hs, ne_eq, not_true_eq_false, if_false,
        Option.bind] at hok
      cases hfm : formatMessage reqCodec respCodec
          (⟨db.nextMessageId, db.nextSessionId, mm.id.toNat?,
            reqCodec.stringify request, some (respCodec.stringify response), none, none⟩ :
            MessageRowView) with
      | error e =>
        rw [hfm] at hok
        cases hok
      | ok m2 =>
        rw [hfm] at hok
        cases hok
        exact ⟨db.nextSessionId, rfl, hfm⟩
    · cases hsid : mm.sessionId.toNat? with
      | none =>
        simp only [storeChat, hs, ne_eq, not_false_eq_true, if_true, hsid,
          Option.bind] at hok
        cases hok
      | some sid =>
        simp only [storeChat, hs, ne_eq, not_false_eq_true, if_true, hsid,
          Option.bind] at hok
        cases hfm : formatMessage reqCodec respCodec
            (⟨db.nextMessageId, sid, mm.id.toNat?,
              reqCodec.stringify request, some (respCodec.stringify response), none, none⟩ :
              MessageRowView) with
        | error e =>
          rw [hfm] at hok
          cases hok
        | ok m2 =>
          rw [hfm] at hok
          cases hok
          exact ⟨sid, rfl, hfm⟩

/-- Inversion of `storeChat` on the no-prior-session path: the session table
gains exactly one session carrying the derived title. -/
theorem storeChat_nosession_sessions {Req Resp : Type} (reqCodec : JsonCodec Req)
    (respCodec : JsonCodec Resp) (getMsgs : Req → Option (List ChatMsgItem)) (db : ChatDb)
    (cm : Option (FormattedMessage Req Resp)) (request : Req) (response : Resp) (now : Nat)
    (db' : ChatDb) (m : FormattedMessage Req Resp)
    (hnosess : ∀ mm, cm = some mm → mm.sessionId = "")
    (hok : storeChat reqCodec respCodec getMsgs db cm request response now = .ok (db', m)) :
    db'.sessions = db.sessions ++
      [⟨db.nextSessionId, deriveTitle (lastContent getMsgs request), now⟩] := by
  cases cm with
  | none =>
    simp only [storeChat, sessionStep, Option.bind] at hok
    cases hfm : formatMessage reqCodec respCodec
        (⟨db.nextMessageId, db.nextSessionId, none,
          reqCodec.stringify request, some (respCodec.stringify response), none, none⟩ :
          MessageRowView) with
    | error e =>
      rw [hfm] at hok
      cases hok
    | ok m2 =>
      rw [hfm] at hok
      cases hok
      rfl
  | some mm =>
    have hs : mm.sessionId = "" := hnosess mm rfl
    simp only [storeChat, sessionStep, hs, ne_eq, not_true_eq_false, if_false,
      Option.bind] at hok
    cases hfm : formatMessage reqCodec respCodec
        (⟨db.nextMessageId, db.nextSessionId, mm.id.toNat?,
          reqCodec.stringify request, some (respCodec.stringify response), none, none⟩ :
          MessageRowView) with
    | error e =>
      rw [hfm] at hok
      cases hok
    | ok m2 =>
      rw [hfm] at hok
      cases hok
      rfl

/-- C9 (amended): storing a turn with no prior session creates a session
whose title is `deriveTitle` of the last request message's content, where
for single-line content the truncation keeps the longest prefix of at most
100 characters ending at a whitespace boundary — the cut is at the LAST
whitespace at or before the 100-character cutoff (`titleBySpecLastWs`), not
the first one after it — and the placeholder "New Chat" is used when no
content is present. -/
theorem C9_title_truncation {Req Resp : Type} (reqCodec : JsonCodec Req)
    (respCodec : JsonCodec Resp) (getMsgs : Req → Option (List ChatMsgItem))
    (db : ChatDb) (currentMessage : Option (FormattedMessage Req Resp)) (request : Req)
    (response : Resp) (now : Nat) (db' : ChatDb) (m : FormattedMessage Req Resp)
    (hnosess : ∀ mm, currentMessage = some mm → mm.sessionId = "")
    (hok : storeChat reqCodec respCodec getMsgs db currentMessage request response now =
      .ok (db', m)) :
    db'.sessions.getLast? =
      some ⟨db.nextSessionId, deriveTitle (lastContent getMsgs request), now⟩ ∧
    (∀ s, lastContent getMsgs request = some s → (∀ c ∈ s.data, jsDot c = true) →
      deriveTitle (lastContent getMsgs request) = titleBySpecLastWs s) ∧
    (lastContent getMsgs request = none →
      deriveTitle (lastContent getMsgs request) = "New Chat") := by
  refine ⟨?_, ?_, ?_⟩
  · rw [storeChat_nosession_sessions reqCodec respCodec getMsgs db currentMessage request
      response now db' m hnosess hok]
    exact List.getLast?_concat _
  · intro s hs hline
    rw [hs]
    exact titleOfContent_singleLine s hline
  · intro hn
    rw [hn]
    rfl

/-- C9 witness: the theorem applied to a concrete request whose last message
content is "hello world"; the created session carries that full title. -/
theorem C9_witness :
    storeChat (constCodec (none : Option (List ChatMsgItem))) strCodec (fun x => x)
        emptyChatDb none (some [⟨some "hello world"⟩]) "resp" 3 =
      .ok (⟨[⟨1, "hello world", 3⟩], [⟨1, none, 1, "x", some "resp", 3, 3⟩], 2, 2⟩,
        ⟨"1", "1", none, some "resp", none, none, none⟩) ∧
    (⟨[⟨1, "hello world", 3⟩], [⟨1, none, 1, "x", some "resp", 3, 3⟩], 2, 2⟩ :
        ChatDb).sessions.getLast? = some ⟨1, "hello world", 3⟩ := by
  refine ⟨rfl, ?_⟩
  have h := C9_title_truncation (constCodec (none : Option (List ChatMsgItem))) strCodec
    (fun x => x) emptyChatDb none (some [⟨some "hello world"⟩]) "resp" 3
    ⟨[⟨1, "hello world", 3⟩], [⟨1, none, 1, "x", some "resp", 3, 3⟩], 2, 2⟩
    ⟨"1", "1", none, some "resp", none, none, none⟩ (fun mm hmm => by cases hmm) rfl
  exact h.1.trans (by decide)

/-- C9 counterexample: content with whitespace at index 10 and at index 106
(the first one after the 100-character cutoff).  The stored session title is
the 10-character prefix (cut at the LAST whitespace before the cutoff), not
the 106-character prefix the claim's "first whitespace boundary after the
cutoff" rule predicts. -/
theorem C9_counterexample :
    (storeChat (constCodec (none : Option (List ChatMsgItem))) strCodec (fun x => x)
        emptyChatDb none (some [⟨some c9content⟩]) "resp" 0).toOption.map
        (fun p => p.1.sessions.map ChatSessionRow.title) =
      some [String.mk (List.replicate 10 'a')] ∧
    ¬ String.mk (List.replicate 10 'a') = c9claimTitle := by
  constructor
  · rfl
  · decide

/-- C10: a successful `storeChat` followed by `retrieveMessageById` on the
returned message's id yields a message whose `request` is deep-equal to the
stored request, whose `response` is deep-equal to the stored response, and
whose `id` and `sessionId` agree with the message `storeChat` returned
(the retrieved copy additionally carries the row's timestamps). -/
theorem C10_store_retrieve_roundtrip {Req Resp : Type} (reqCodec : JsonCodec Req)
    (respCodec : JsonCodec Resp) (getMsgs : Req → Option (List ChatMsgItem)) (db : ChatDb)
    (cm : Option (FormattedMessage Req Resp)) (request : Req) (response : Resp) (now : Nat)
    (db' : ChatDb) (m : FormattedMessage Req Resp)
    (hreq : reqCodec.Serializable request)
    (hresp : respCodec.Serializable response)
    (hrne : ¬ respCodec.stringify response = "")
    (hfresh : ∀ r ∈ db.messages, ¬ toString r.id = toString db.nextMessageId)
    (hok : storeChat reqCodec respCodec getMsgs db cm request response now = .ok (db', m)) :
    retrieveMessageById reqCodec respCodec db' m.id =
      .ok ⟨m.id, m.sessionId, request, some response, m.previousMessageId,
        some now, some now⟩ ∧
    m.request = request ∧ m.response = some response := by
  obtain ⟨sid, hmsgs, hfm⟩ := storeChat_ok_shape reqCodec respCodec getMsgs db cm request
    response now db' m hok
  simp only [JsonCodec.Serializable] at hreq hresp
  have hfm2 : formatMessage reqCodec respCodec
      (⟨db.nextMessageId, sid, cm.bind (fun x => x.id.toNat?),
        reqCodec.stringify request, some (respCodec.stringify response), none, none⟩ :
        MessageRowView) =
      .ok ⟨toString db.nextMessageId, toString sid, request, some response,
        (cm.bind (fun x => x.id.toNat?)).map toString, none, none⟩ := by
    simp only [formatMessage, respField, hreq, if_neg hrne, hresp]
  have hm : m = ⟨toString db.nextMessageId, toString sid, request, some response,
      (cm.bind (fun x => x.id.toNat?)).map toString, none, none⟩ :=
    Except.ok.inj (hfm.symm.trans hfm2)
  subst hm
  refine ⟨?_, rfl, rfl⟩
  have hfind : db'.messages.find?
      (fun r => toString r.id == toString db.nextMessageId) = some
      ⟨db.nextMessageId, cm.bind (fun x => x.id.toNat?), sid,
        reqCodec.stringify request, some (respCodec.stringify response), now, now⟩ := by
    rw [hmsgs, List.find?_append]
    have hnone : db.messages.find?
        (fun r => toString r.id == toString db.nextMessageId) = none := by
      rw [List.find?_eq_none]
      intro r hr
      simpa using hfresh r hr
    rw [hnone]
    simp [List.find?]
  unfold retrieveMessageById
  simp only []
  rw [hfind]
  simp only [formatMessage, respField, hreq, if_neg hrne, hresp]

/-- C10 witness: the theorem applied to a fresh database and a concrete
request/response pair. -/
theorem C10_witness :
    storeChat strCodec strCodec (fun _ : String => none) emptyChatDb none "hi" "world" 7 =
      .ok (⟨[⟨1, "New Chat", 7⟩], [⟨1, none, 1, "hi", some "world", 7, 7⟩], 2, 2⟩,
        ⟨"1", "1", "hi", some "world", none, none, none⟩) ∧
    retrieveMessageById strCodec strCodec
        (⟨[⟨1, "New Chat", 7⟩], [⟨1, none, 1, "hi", some "world", 7, 7⟩], 2, 2⟩ : ChatDb)
        "1" =
      .ok ⟨"1", "1", "hi", some "world", none, some 7, some 7⟩ := by
  refine ⟨rfl, ?_⟩
  have h := C10_store_retrieve_roundtrip strCodec strCodec (fun _ : String => none)
    emptyChatDb none "hi" "world" 7
    ⟨[⟨1, "New Chat", 7⟩], [⟨1, none, 1, "hi", some "world", 7, 7⟩], 2, 2⟩
    ⟨"1", "1", "hi", some "world", none, none, none⟩
    rfl rfl (by decide) (fun r hr => absurd hr (List.not_mem_nil r)) rfl
  exact h.1
